import Mathlib

/-!
Shallow embedding of the BIM-Viewer component engine.

Sources embedded here:
* `App` (ComponentPanel.jsx, second document): the component list state and its
  updater callbacks `handleComponentToggle`, `handleComponentHighlight`,
  `setExplodeAmount`, `handleToggleExplode`, `clearComponents`.
* `IFCViewer` (unnamed/part_001): `loadIFCFile` (per-id decode loop),
  `handleFileUpload` (validation), `handleSceneClick` (pick highlight),
  the explode effect, `ClippingPlanes`, and `MeasurementSystem`.

JavaScript numbers are modelled as `ℝ` where square roots occur (geometry)
and as `ℚ` where the code only compares and clamps (slider values, clip
plane constants).  Express ids are `Nat` (the decoder only keeps ids `> 0`).
-/

namespace BIM

/-- A world-space vector, as a `THREE.Vector3` value. -/
structure Vec3 where
  x : ℝ
  y : ℝ
  z : ℝ

/-- Componentwise vector addition (`THREE.Vector3.add`). -/
def Vec3.add (a b : Vec3) : Vec3 := ⟨a.x + b.x, a.y + b.y, a.z + b.z⟩

/-- Componentwise vector subtraction (`THREE.Vector3.subVectors`). -/
def Vec3.sub (a b : Vec3) : Vec3 := ⟨a.x - b.x, a.y - b.y, a.z - b.z⟩

/-- Scalar multiplication (`THREE.Vector3.multiplyScalar`). -/
def Vec3.scale (s : ℝ) (a : Vec3) : Vec3 := ⟨s * a.x, s * a.y, s * a.z⟩

/-- The zero vector, `new THREE.Vector3()`. -/
def Vec3.zero : Vec3 := ⟨0, 0, 0⟩

/-- Euclidean norm of a vector (`THREE.Vector3.length`). -/
noncomputable def Vec3.norm (a : Vec3) : ℝ :=
  Real.sqrt (a.x ^ 2 + a.y ^ 2 + a.z ^ 2)

/-- `THREE.Vector3.normalize`: divides by `this.length() || 1`, so the zero
vector (length `0`, falsy) is divided by `1` and stays the zero vector
instead of producing NaN. -/
noncomputable def Vec3.normalize (a : Vec3) : Vec3 :=
  let l := a.norm
  let d := if l = 0 then 1 else l
  ⟨a.x / d, a.y / d, a.z / d⟩

/-- `THREE.Vector3.distanceTo`: Euclidean distance between two points. -/
noncomputable def Vec3.distanceTo (a b : Vec3) : ℝ :=
  Real.sqrt ((a.x - b.x) ^ 2 + (a.y - b.y) ^ 2 + (a.z - b.z) ^ 2)

/-- One component object as pushed by `loadIFCFile` and held in `App`'s
`components` state: `{ id, name, type, mesh, visible, highlighted,
initialPosition }`.  The mesh (the geometry subset) is modelled by an opaque
handle number. -/
structure Component where
  id : Nat
  name : String
  type : String
  mesh : Nat
  visible : Bool
  highlighted : Bool
  initialPosition : Vec3

/-- `App.handleComponentToggle`: maps over the previous components, flipping
`visible` on the component whose id matches and spreading every other
component through unchanged. -/
def handleComponentToggle (componentId : Nat) (prevComponents : List Component) :
    List Component :=
  prevComponents.map (fun comp =>
    if comp.id = componentId then { comp with visible := !comp.visible } else comp)

/-- `App.handleComponentHighlight`: maps over the previous components; the
matching component gets `highlighted := !comp.highlighted` (a toggle) and
every other component gets `highlighted := false`. -/
def handleComponentHighlight (componentId : Nat) (prevComponents : List Component) :
    List Component :=
  prevComponents.map (fun comp =>
    if comp.id = componentId then { comp with highlighted := !comp.highlighted }
    else { comp with highlighted := false })

/-- `IFCViewer.handleSceneClick` (and the components-list row click): replaces
the list with `components.map (c => ({ ...c, highlighted: c.id === expressID }))`. -/
def handleSceneClick (expressID : Nat) (components : List Component) :
    List Component :=
  components.map (fun c => { c with highlighted := decide (c.id = expressID) })

/-- `App.clearComponents`: `setComponents([])`. -/
def clearComponents (_components : List Component) : List Component := []

/-- Number of components currently highlighted (the panel's
`components.filter(c => c.highlighted).length` statistic). -/
def countHighlighted (components : List Component) : Nat :=
  (components.filter (fun c => c.highlighted)).length

/-! ## GeometryDecoder (`loadIFCFile`, unnamed/part_001) -/

/-- Result of `ifcManager.getItemProperties(modelID, id, true)` after the
`!props || typeof props.type === 'undefined'` check has something to look at:
`nameValue` is `props.Name?.value` (absent when `Name` is missing) and
`typeCode` is `props.type` (`none` models `undefined`). -/
structure ItemProps where
  nameValue : Option String
  typeCode : Option Nat

/-- The `IFC_TYPES_MAP` literal object: numeric type code to type name. -/
def IFC_TYPES_MAP : Nat → Option String := fun code =>
  match code with
  | 0 => some "Unknown"
  | 1 => some "IFCWALL"
  | 2 => some "IFCSLAB"
  | 3 => some "IFCCOLUMN"
  | 4 => some "IFCBEAM"
  | 5 => some "IFCDOOR"
  | 6 => some "IFCWINDOW"
  | _ => none

/-- The scan over `expressIDAttr.array` that fills the `uniqueIDs` `Set`:
every id `> 0` is kept, first-seen order, duplicates dropped (a JavaScript
`Set` preserves insertion order).  Kept ids are positive, so they are stored
as `Nat`. -/
def uniqueIDs (idsArray : List Int) : List Nat :=
  idsArray.foldl
    (fun acc id => if 0 < id ∧ id.toNat ∉ acc then acc ++ [id.toNat] else acc) []

/-- The body of the per-id loop in `loadIFCFile`: create the geometry subset,
query item properties, and skip the id (returning `none`) when the lookup
throws or yields no recognizable `type` field.  `getItemProperties id = none`
models both a thrown lookup and a falsy `props`; `typeCode = none` models
`typeof props.type === 'undefined'`.  On success the pushed component has
`visible: true`, `highlighted: false`, and `initialPosition` equal to the
subset mesh's position (`subsetPos id`); the subset handle is identified by
the id itself.  The `||` fallbacks for name and type follow the source:
`props.Name?.value || ID <id>` (a missing or empty string is falsy) and
`IFC_TYPES_MAP[typeCode] || Type_<typeCode>`. -/
def processId (getItemProperties : Nat → Option ItemProps) (subsetPos : Nat → Vec3)
    (id : Nat) : Option Component :=
  match getItemProperties id with
  | none => none
  | some props =>
    match props.typeCode with
    | none => none
    | some tc =>
      let fallbackName := "ID " ++ toString id
      let name := match props.nameValue with
        | none => fallbackName
        | some s => if s = "" then fallbackName else s
      some { id := id
             name := name
             type := (IFC_TYPES_MAP tc).getD ("Type_" ++ toString tc)
             mesh := id
             visible := true
             highlighted := false
             initialPosition := subsetPos id }

/-- Accumulator of the decode loop: `components`, `processedCount`,
`failedCount`. -/
structure DecodeAcc where
  components : List Component
  processedCount : Nat
  failedCount : Nat

/-- One iteration of the `for (const id of uniqueIDs)` loop: a successful
`processId` pushes the component and bumps `processedCount`; a failure bumps
`failedCount` and `continue`s. -/
def decodeStep (getItemProperties : Nat → Option ItemProps) (subsetPos : Nat → Vec3)
    (acc : DecodeAcc) (id : Nat) : DecodeAcc :=
  match processId getItemProperties subsetPos id with
  | some c =>
      { components := acc.components ++ [c]
        processedCount := acc.processedCount + 1
        failedCount := acc.failedCount }
  | none => { acc with failedCount := acc.failedCount + 1 }

/-- The whole per-id loop of `loadIFCFile`, starting from empty accumulators. -/
def decodeIds (getItemProperties : Nat → Option ItemProps) (subsetPos : Nat → Vec3)
    (ids : List Nat) : DecodeAcc :=
  ids.foldl (decodeStep getItemProperties subsetPos) ⟨[], 0, 0⟩

/-- Terminal outcome of `loadIFCFile` past the decode stage: either a resolve
with the component list, or the reject raised when zero components survived
(the spec's `EmptyModelError`). -/
inductive LoadResult where
  | ok (components : List Component) (failedCount : Nat)
  | emptyModelError (message : String)

/-- `loadIFCFile` from the point where the geometry and its `expressID`
attribute exist: collect distinct positive ids, run the per-id loop, then
`resolve` when `components.length > 0` and otherwise `reject` with the
empty-model error message. -/
def loadIFCFile (getItemProperties : Nat → Option ItemProps) (subsetPos : Nat → Vec3)
    (idsArray : List Int) : LoadResult :=
  let acc := decodeIds getItemProperties subsetPos (uniqueIDs idsArray)
  if acc.components.length > 0 then .ok acc.components acc.failedCount
  else .emptyModelError "No valid components could be extracted from the IFC file"

/-! ## Upload validation (`handleFileUpload`, unnamed/part_001) -/

/-- The slice of a `File` object that `handleFileUpload` inspects. -/
structure UploadFile where
  name : String
  size : Nat

/-- Outcome of `handleFileUpload` as observable by the UI. -/
inductive UploadOutcome where
  | validationError (title message : String)
  | loadingError (title message : String)
  | loaded (components : List Component)

/-- `file.name.toLowerCase()` viewed as its character list
(JavaScript `toLowerCase` lowercases each character). -/
def lowerChars (name : String) : List Char := name.data.map Char.toLower

/-- `file.name.toLowerCase().endsWith('.ifc')`. -/
def hasIfcExtension (name : String) : Bool :=
  List.isSuffixOf ['.', 'i', 'f', 'c'] (lowerChars name)

/-- `IFCViewer.handleFileUpload`: reject when the lowercased file name does
not end with `.ifc`; reject when `file.size > 100 * 1024 * 1024`; both
rejections happen before `loadIFCFile` runs and leave the component state
untouched.  Otherwise the (abstracted) load runs and, on success,
`onComponentUpdate(result.components)` replaces the registry. -/
def handleFileUpload (loadFile : UploadFile → Except String (List Component))
    (file : UploadFile) (components : List Component) :
    UploadOutcome × List Component :=
  if hasIfcExtension file.name = false then
    (.validationError "Invalid File"
      "Please select a valid IFC file (.ifc extension required).", components)
  else if file.size > 100 * 1024 * 1024 then
    (.validationError "File Too Large" "File size exceeds 100MB limit.", components)
  else
    match loadFile file with
    | .ok cs => (.loaded cs, cs)
    | .error msg => (.loadingError "Loading Error" msg, components)

/-! ## Explode amount (`App`, ComponentPanel.jsx second document) -/

/-- `setExplodeAmount` is the raw `useState` setter in `App`: the new stored
amount is exactly the argument; no clamping happens in the setter. -/
def setExplodeAmount (value : ℚ) (_prev : ℚ) : ℚ := value

/-- Value reported by an HTML range input with the given `min`/`max`
attributes: the browser clamps the input value into `[minVal, maxVal]`.  The
explode slider is declared `min={0} max={2}` in the source. -/
def rangeInputValue (minVal maxVal v : ℚ) : ℚ := max minVal (min maxVal v)

/-- The explode slider's `onChange` path: the range element (attributes
`min=0`, `max=2`) clamps the value, and the handler stores
`parseFloat(e.target.value)` through `setExplodeAmount`. -/
def explodeSliderChange (v : ℚ) (prev : ℚ) : ℚ :=
  setExplodeAmount (rangeInputValue 0 2 v) prev

/-- `App.handleToggleExplode`: `setExplodeAmount(prev => prev > 0 ? 0 : 2)`. -/
def handleToggleExplode (prev : ℚ) : ℚ := if prev > 0 then 0 else 2

/-! ## ClippingPlanes (unnamed/part_001) -/

/-- The clip axis selector value (`'x' | 'y' | 'z'`). -/
inductive ClipAxis where
  | x
  | y
  | z
deriving DecidableEq

/-- A `THREE.Plane` value as built by `ClippingPlanes`: unit normal along the
chosen axis, constant `-splitPosition / 10`. -/
structure ClipPlane where
  nx : ℚ
  ny : ℚ
  nz : ℚ
  constant : ℚ
deriving DecidableEq

/-- The plane constructed in the `ClippingPlanes` effect. -/
def computeClipPlane (clipAxis : ClipAxis) (splitPosition : ℚ) : ClipPlane :=
  { nx := if clipAxis = .x then 1 else 0
    ny := if clipAxis = .y then 1 else 0
    nz := if clipAxis = .z then 1 else 0
    constant := -splitPosition / 10 }

/-- The slice of a mesh material that the clipping and wireframe effects
mutate. -/
structure Material where
  clippingPlanes : List ClipPlane
  wireframe : Bool
deriving DecidableEq

/-- The `ClippingPlanes` effect over the scene's mesh materials: when split
mode is off every material's `clippingPlanes` is assigned `[]`; when on,
every material's `clippingPlanes` is assigned the single computed plane
(a plain assignment, replacing whatever list was there before). -/
def applyClippingPlanes (isSplitMode : Bool) (clipAxis : ClipAxis)
    (splitPosition : ℚ) (materials : List Material) : List Material :=
  if isSplitMode = false then
    materials.map (fun mat => { mat with clippingPlanes := [] })
  else
    let plane := computeClipPlane clipAxis splitPosition
    materials.map (fun mat => { mat with clippingPlanes := [plane] })

/-! ## MeasurementSystem (unnamed/part_001) -/

/-- State of the measurement tool: the `isMeasuring` flag held by `IFCViewer`
(passed down as `isActive`) and the `points` captured so far. -/
structure MeasurementState where
  isActive : Bool
  points : List Vec3

/-- What `onMeasurementComplete(point1, point2, distance)` carries. -/
structure MeasurementResult where
  point1 : Vec3
  point2 : Vec3
  distance : ℝ

/-- The click handler inside `MeasurementSystem`: ignore clicks while
inactive or when the ray hits nothing; from no captured points, store the
hit point; from one captured point, store both points and emit
`{point1, point2, distance}` where `distance = point1.distanceTo(point2)`;
with two points already stored, do nothing. -/
noncomputable def measurementClick (s : MeasurementState) (hit : Option Vec3) :
    MeasurementState × Option MeasurementResult :=
  if s.isActive = false then (s, none)
  else
    match hit with
    | none => (s, none)
    | some newPoint =>
      match s.points with
      | [] => ({ s with points := [newPoint] }, none)
      | [point1] =>
          ({ s with points := [point1, newPoint] },
           some ⟨point1, newPoint, point1.distanceTo newPoint⟩)
      | _ => (s, none)

/-- The `useEffect([isActive])` in `MeasurementSystem`: whenever the tool is
inactive, captured points (and lines) are cleared. -/
def measurementDeactivationEffect (s : MeasurementState) : MeasurementState :=
  if s.isActive = false then { s with points := [] } else s

/-- One click processed by the whole measurement pipeline: the
`MeasurementSystem` click handler runs; if it emitted a result,
`IFCViewer.handleMeasurementComplete` sets `isMeasuring` to `false`, and the
deactivation effect then clears the captured points. -/
noncomputable def measurementSystemStep (s : MeasurementState) (hit : Option Vec3) :
    MeasurementState × Option MeasurementResult :=
  let r := measurementClick s hit
  match r.2 with
  | some res => (measurementDeactivationEffect { r.1 with isActive := false }, some res)
  | none => (r.1, none)

/-! ## Explode effect (unnamed/part_001) -/

/-- The per-component state the explode effect touches: the immutable
`initialPosition` captured at decode time and the mesh's current
`position`. -/
structure MeshComponent where
  initialPosition : Vec3
  meshPosition : Vec3

/-- `direction = new THREE.Vector3().subVectors(centroid, modelCenter).normalize()`. -/
noncomputable def explodeDirection (centroid modelCenter : Vec3) : Vec3 :=
  (centroid.sub modelCenter).normalize

/-- `offset = direction.multiplyScalar(explodeAmount * modelSize * 0.5)`. -/
noncomputable def explodeOffset (explodeAmount modelSize : ℝ)
    (centroid modelCenter : Vec3) : Vec3 :=
  (explodeDirection centroid modelCenter).scale (explodeAmount * modelSize * 0.5)

/-- The `components.forEach((component, i) => ...)` body of the explode
effect, carrying the loop index to look up `originalCentroids[i]`: the mesh
position is first reset with `mesh.position.copy(component.initialPosition)`
and the offset is added only when `explodeAmount > 0`. -/
noncomputable def explodeLoop (explodeAmount modelSize : ℝ) (modelCenter : Vec3)
    (originalCentroids : List Vec3) : Nat → List MeshComponent → List MeshComponent
  | _, [] => []
  | i, component :: rest =>
      (if explodeAmount > 0 then
        { component with
            meshPosition :=
              component.initialPosition.add
                (explodeOffset explodeAmount modelSize
                  (originalCentroids.getD i Vec3.zero) modelCenter) }
      else { component with meshPosition := component.initialPosition })
      :: explodeLoop explodeAmount modelSize modelCenter originalCentroids (i + 1) rest

/-- The explode `useEffect` over the whole component list (index starts at 0). -/
noncomputable def explodeEffect (explodeAmount modelSize : ℝ) (modelCenter : Vec3)
    (originalCentroids : List Vec3) (components : List MeshComponent) :
    List MeshComponent :=
  explodeLoop explodeAmount modelSize modelCenter originalCentroids 0 components

/-- A sequence of explode-effect runs: each slider change reruns the effect
with a new amount (and freshly recomputed model box, hence possibly a new
center and size), while `originalCentroids` stays cached. -/
noncomputable def applyExplodeHistory (originalCentroids : List Vec3)
    (history : List (ℝ × ℝ × Vec3)) (components : List MeshComponent) :
    List MeshComponent :=
  history.foldl
    (fun cs step => explodeEffect step.1 step.2.1 step.2.2 originalCentroids cs)
    components

/-! ## Registry invariant and reachable states -/

/-- Invariant maintained by the registry proofs: component ids are pairwise
distinct and at most one component is highlighted. -/
def registryInvariant (components : List Component) : Prop :=
  (components.map (fun c => c.id)).Nodup ∧ countHighlighted components ≤ 1

/-- States of `App`'s `components` list reachable through the operations the
code exposes: the empty initial state, a successful load installing
`result.components`, the panel visibility toggle, the panel highlight, a
scene pick, and clear. -/
inductive ReachableComponents : List Component → Prop where
  | start : ReachableComponents []
  | loadOk (prev components : List Component) (failedCount : Nat)
      (getItemProperties : Nat → Option ItemProps) (subsetPos : Nat → Vec3)
      (idsArray : List Int) :
      ReachableComponents prev →
      loadIFCFile getItemProperties subsetPos idsArray = .ok components failedCount →
      ReachableComponents components
  | toggle (prev : List Component) (componentId : Nat) :
      ReachableComponents prev →
      ReachableComponents (handleComponentToggle componentId prev)
  | highlight (prev : List Component) (componentId : Nat) :
      ReachableComponents prev →
      ReachableComponents (handleComponentHighlight componentId prev)
  | sceneClick (prev : List Component) (expressID : Nat) :
      ReachableComponents prev →
      ReachableComponents (handleSceneClick expressID prev)
  | clear (prev : List Component) :
      ReachableComponents prev →
      ReachableComponents (clearComponents prev)

/-! ## Concrete data used by witnesses and counterexamples -/

/-- A component that is currently highlighted. -/
def demoHighlighted : Component := ⟨1, "ID 1", "IFCWALL", 1, true, true, Vec3.zero⟩

/-- A component that is not highlighted. -/
def demoPlain : Component := ⟨2, "ID 2", "IFCSLAB", 2, true, false, Vec3.zero⟩

/-- A property lookup that fails exactly on ids 3 and 7. -/
def demoLookup : Nat → Option ItemProps := fun id =>
  if id = 3 ∨ id = 7 then none else some ⟨none, some 1⟩

/-- Every geometry subset sits at the origin. -/
def demoSubsetPos : Nat → Vec3 := fun _ => Vec3.zero

/-- The components produced by a load of ids `[1, 2]` under `demoLookup`. -/
def demoLoaded : List Component :=
  [⟨1, "ID 1", "IFCWALL", 1, true, false, Vec3.zero⟩,
   ⟨2, "ID 2", "IFCWALL", 2, true, false, Vec3.zero⟩]

/-! ## Supporting lemmas -/

theorem explodeLoop_map_initialPosition (a s : ℝ) (center : Vec3)
    (cents : List Vec3) :
    ∀ (comps : List MeshComponent) (i : Nat),
      (explodeLoop a s center cents i comps).map (fun c => c.initialPosition)
        = comps.map (fun c => c.initialPosition)
  | [], _ => rfl
  | _ :: rest, i => by
      simp only [explodeLoop, List.map_cons]
      rw [explodeLoop_map_initialPosition a s center cents rest (i + 1)]
      split <;> rfl

theorem explodeLoop_zero_amount (s : ℝ) (center : Vec3) (cents : List Vec3) :
    ∀ (comps : List MeshComponent) (i : Nat),
      explodeLoop 0 s center cents i comps
        = comps.map (fun c => { c with meshPosition := c.initialPosition })
  | [], _ => rfl
  | _ :: rest, i => by
      simp only [explodeLoop, List.map_cons]
      rw [explodeLoop_zero_amount s center cents rest (i + 1), if_neg (lt_irrefl (0 : ℝ))]

theorem applyExplodeHistory_map_initialPosition (cents : List Vec3) :
    ∀ (history : List (ℝ × ℝ × Vec3)) (comps : List MeshComponent),
      (applyExplodeHistory cents history comps).map (fun c => c.initialPosition)
        = comps.map (fun c => c.initialPosition)
  | [], _ => rfl
  | step :: rest, comps => by
      show (applyExplodeHistory cents rest
              (explodeEffect step.1 step.2.1 step.2.2 cents comps)).map
            (fun c => c.initialPosition)
          = comps.map (fun c => c.initialPosition)
      rw [applyExplodeHistory_map_initialPosition cents rest]
      exact explodeLoop_map_initialPosition step.1 step.2.1 step.2.2 cents comps 0

theorem foldl_decodeStep_components (getItemProperties : Nat → Option ItemProps)
    (subsetPos : Nat → Vec3) :
    ∀ (ids : List Nat) (acc : DecodeAcc),
      (ids.foldl (decodeStep getItemProperties subsetPos) acc).components
        = acc.components ++ ids.filterMap (processId getItemProperties subsetPos)
  | [], acc => by simp
  | id :: rest, acc => by
      rw [List.foldl_cons,
        foldl_decodeStep_components getItemProperties subsetPos rest]
      rw [decodeStep]
      cases h : processId getItemProperties subsetPos id with
      | some c => simp [List.filterMap_cons, h]
      | none => simp [List.filterMap_cons, h]

theorem foldl_decodeStep_failedCount (getItemProperties : Nat → Option ItemProps)
    (subsetPos : Nat → Vec3) :
    ∀ (ids : List Nat) (acc : DecodeAcc),
      (ids.foldl (decodeStep getItemProperties subsetPos) acc).failedCount
        = acc.failedCount
          + (ids.filter
              (fun id => (processId getItemProperties subsetPos id).isNone)).length
  | [], acc => by simp
  | id :: rest, acc => by
      rw [List.foldl_cons,
        foldl_decodeStep_failedCount getItemProperties subsetPos rest]
      rw [decodeStep]
      cases h : processId getItemProperties subsetPos id with
      | some c => simp [List.filter_cons, h]
      | none => simp [List.filter_cons, h]; omega

theorem length_filterMap_processId (getItemProperties : Nat → Option ItemProps)
    (subsetPos : Nat → Vec3) :
    ∀ ids : List Nat,
      (ids.filterMap (processId getItemProperties subsetPos)).length
        + (ids.filter
            (fun id => (processId getItemProperties subsetPos id).isNone)).length
        = ids.length
  | [] => rfl
  | id :: rest => by
      have ih := length_filterMap_processId getItemProperties subsetPos rest
      cases h : processId getItemProperties subsetPos id with
      | some c => simp [List.filterMap_cons, List.filter_cons, h]; omega
      | none => simp [List.filterMap_cons, List.filter_cons, h]; omega

theorem countHighlighted_panelHighlight (X : Nat) :
    ∀ l : List Component,
      countHighlighted (handleComponentHighlight X l)
        = (l.filter (fun c => decide (c.id = X) && !c.highlighted)).length
  | [] => rfl
  | c :: rest => by
      have ih := countHighlighted_panelHighlight X rest
      by_cases h : c.id = X
      · by_cases hh : c.highlighted = true
        · simpa [countHighlighted, handleComponentHighlight, List.filter_cons,
            h, hh] using ih
        · simpa [countHighlighted, handleComponentHighlight, List.filter_cons,
            h, Bool.eq_false_iff.mpr hh, List.length_cons] using ih
      · simpa [countHighlighted, handleComponentHighlight, List.filter_cons,
          h] using ih

theorem countHighlighted_sceneClick (X : Nat) :
    ∀ l : List Component,
      countHighlighted (handleSceneClick X l)
        = (l.filter (fun c => decide (c.id = X))).length
  | [] => rfl
  | c :: rest => by
      have ih := countHighlighted_sceneClick X rest
      by_cases h : c.id = X
      · simpa [countHighlighted, handleSceneClick, List.filter_cons, h] using ih
      · simpa [countHighlighted, handleSceneClick, List.filter_cons, h] using ih

theorem filter_id_eq_nil (X : Nat) :
    ∀ l : List Component, X ∉ l.map (fun c => c.id) →
      l.filter (fun c => decide (c.id = X)) = []
  | [], _ => rfl
  | c :: rest, h => by
      rw [List.map_cons, List.mem_cons] at h
      push_neg at h
      rw [List.filter_cons, if_neg (by simp; exact fun hc => h.1 hc.symm)]
      exact filter_id_eq_nil X rest h.2

theorem length_filter_id_eq_one (X : Nat) :
    ∀ l : List Component, (l.map (fun c => c.id)).Nodup →
      X ∈ l.map (fun c => c.id) →
      (l.filter (fun c => decide (c.id = X))).length = 1
  | [], _, hmem => absurd hmem (by simp)
  | c :: rest, hnodup, hmem => by
      rw [List.map_cons, List.nodup_cons] at hnodup
      rw [List.map_cons, List.mem_cons] at hmem
      by_cases h : c.id = X
      · rw [List.filter_cons, if_pos (by simp [h]),
          filter_id_eq_nil X rest (h ▸ hnodup.1)]
        rfl
      · rcases hmem with hm | hm
        · exact absurd hm.symm h
        · rw [List.filter_cons, if_neg (by simp [h])]
          exact length_filter_id_eq_one X rest hnodup.2 hm

theorem length_filter_and_le (p q : Component → Bool) :
    ∀ l : List Component,
      (l.filter (fun c => p c && q c)).length ≤ (l.filter p).length
  | [] => Nat.le_refl 0
  | c :: rest => by
      have ih := length_filter_and_le p q rest
      by_cases hp : p c = true
      · by_cases hq : q c = true
        · simp [List.filter_cons, hp, hq]; omega
        · simp [List.filter_cons, hp, Bool.eq_false_iff.mpr hq]; omega
      · simp [List.filter_cons, Bool.eq_false_iff.mpr hp]; omega

theorem panelHighlight_highlighted_id (X : Nat) (l : List Component) :
    ∀ c' ∈ handleComponentHighlight X l, c'.highlighted = true → c'.id = X := by
  intro c' hc' hhl
  rw [handleComponentHighlight] at hc'
  rcases List.mem_map.mp hc' with ⟨c, _, rfl⟩
  by_cases h : c.id = X
  · rw [if_pos h]
    exact h
  · rw [if_neg h] at hhl
    exact absurd hhl (by simp)

theorem sceneClick_highlighted_id (X : Nat) (l : List Component) :
    ∀ c' ∈ handleSceneClick X l, c'.highlighted = true → c'.id = X := by
  intro c' hc' hhl
  rw [handleSceneClick] at hc'
  rcases List.mem_map.mp hc' with ⟨c, _, rfl⟩
  simpa using hhl

theorem map_id_toggle (X : Nat) :
    ∀ l : List Component,
      (handleComponentToggle X l).map (fun c => c.id) = l.map (fun c => c.id)
  | [] => rfl
  | c :: rest => by
      have ih := map_id_toggle X rest
      by_cases h : c.id = X
      · simpa [handleComponentToggle, h] using ih
      · simpa [handleComponentToggle, h] using ih

theorem map_id_panelHighlight (X : Nat) :
    ∀ l : List Component,
      (handleComponentHighlight X l).map (fun c => c.id) = l.map (fun c => c.id)
  | [] => rfl
  | c :: rest => by
      have ih := map_id_panelHighlight X rest
      by_cases h : c.id = X
      · simpa [handleComponentHighlight, h] using ih
      · simpa [handleComponentHighlight, h] using ih

theorem map_id_sceneClick (X : Nat) :
    ∀ l : List Component,
      (handleSceneClick X l).map (fun c => c.id) = l.map (fun c => c.id)
  | [] => rfl
  | c :: rest => by simp [handleSceneClick]

theorem countHighlighted_toggle (X : Nat) :
    ∀ l : List Component,
      countHighlighted (handleComponentToggle X l) = countHighlighted l
  | [] => rfl
  | c :: rest => by
      have ih := countHighlighted_toggle X rest
      by_cases h : c.id = X
      · by_cases hh : c.highlighted = true
        · simpa [countHighlighted, handleComponentToggle, List.filter_cons,
            h, hh] using ih
        · simpa [countHighlighted, handleComponentToggle, List.filter_cons,
            h, Bool.eq_false_iff.mpr hh] using ih
      · by_cases hh : c.highlighted = true
        · simpa [countHighlighted, handleComponentToggle, List.filter_cons,
            h, hh] using ih
        · simpa [countHighlighted, handleComponentToggle, List.filter_cons,
            h, Bool.eq_false_iff.mpr hh] using ih

theorem length_filter_id_le_one (X : Nat) (l : List Component)
    (hnodup : (l.map (fun c => c.id)).Nodup) :
    (l.filter (fun c => decide (c.id = X))).length ≤ 1 := by
  by_cases hmem : X ∈ l.map (fun c => c.id)
  · exact le_of_eq (length_filter_id_eq_one X l hnodup hmem)
  · rw [filter_id_eq_nil X l hmem]
    exact Nat.zero_le 1

theorem processId_some (getItemProperties : Nat → Option ItemProps)
    (subsetPos : Nat → Vec3) (id : Nat) (c : Component)
    (h : processId getItemProperties subsetPos id = some c) :
    c.id = id ∧ c.highlighted = false := by
  rw [processId] at h
  cases hg : getItemProperties id with
  | none => rw [hg] at h; exact absurd h (by simp)
  | some props =>
      rw [hg] at h
      dsimp only at h
      cases ht : props.typeCode with
      | none => rw [ht] at h; exact absurd h (by simp)
      | some tc =>
          rw [ht] at h
          dsimp only at h
          cases h
          exact ⟨rfl, rfl⟩

theorem filterMap_processId_ids (getItemProperties : Nat → Option ItemProps)
    (subsetPos : Nat → Vec3) :
    ∀ ids : List Nat,
      (ids.filterMap (processId getItemProperties subsetPos)).map (fun c => c.id)
        = ids.filter (fun id => (processId getItemProperties subsetPos id).isSome)
  | [] => rfl
  | id :: rest => by
      have ih := filterMap_processId_ids getItemProperties subsetPos rest
      cases h : processId getItemProperties subsetPos id with
      | none => simpa [List.filterMap_cons, List.filter_cons, h] using ih
      | some c =>
          have hid := (processId_some getItemProperties subsetPos id c h).1
          simp [List.filterMap_cons, List.filter_cons, h, hid, ih]

theorem filterMap_processId_not_highlighted
    (getItemProperties : Nat → Option ItemProps) (subsetPos : Nat → Vec3)
    (ids : List Nat) :
    ∀ c ∈ ids.filterMap (processId getItemProperties subsetPos),
      c.highlighted = false := by
  intro c hc
  rcases List.mem_filterMap.mp hc with ⟨id, _, h⟩
  exact (processId_some getItemProperties subsetPos id c h).2

theorem countHighlighted_eq_zero (l : List Component)
    (h : ∀ c ∈ l, c.highlighted = false) : countHighlighted l = 0 := by
  rw [countHighlighted, List.filter_eq_nil_iff.mpr (by intro c hc; simp [h c hc])]
  rfl

theorem foldl_uniqueIDs_nodup :
    ∀ (idsArray : List Int) (acc : List Nat), acc.Nodup →
      (idsArray.foldl
        (fun acc id => if 0 < id ∧ id.toNat ∉ acc then acc ++ [id.toNat] else acc)
        acc).Nodup
  | [], _, h => h
  | id :: rest, acc, h => by
      rw [List.foldl_cons]
      by_cases hc : 0 < id ∧ id.toNat ∉ acc
      · rw [if_pos hc]
        refine foldl_uniqueIDs_nodup rest _ ?_
        simp [List.nodup_append, h, hc.2]
      · rw [if_neg hc]
        exact foldl_uniqueIDs_nodup rest acc h

theorem uniqueIDs_nodup (idsArray : List Int) : (uniqueIDs idsArray).Nodup :=
  foldl_uniqueIDs_nodup idsArray [] List.nodup_nil

theorem reachable_invariant :
    ∀ s : List Component, ReachableComponents s → registryInvariant s := by
  intro s h
  induction h with
  | start => exact ⟨List.nodup_nil, by decide⟩
  | loadOk prev components failedCount gip sp idsArray hprev heq ih =>
      rw [loadIFCFile] at heq
      by_cases hlen :
          (decodeIds gip sp (uniqueIDs idsArray)).components.length > 0
      · rw [if_pos hlen] at heq
        cases heq
        have hc : (decodeIds gip sp (uniqueIDs idsArray)).components
            = (uniqueIDs idsArray).filterMap (processId gip sp) := by
          simpa using
            foldl_decodeStep_components gip sp (uniqueIDs idsArray) ⟨[], 0, 0⟩
        rw [registryInvariant, hc]
        refine ⟨?_, ?_⟩
        · rw [filterMap_processId_ids]
          exact (uniqueIDs_nodup idsArray).filter _
        · rw [countHighlighted_eq_zero _
            (filterMap_processId_not_highlighted gip sp (uniqueIDs idsArray))]
          exact Nat.zero_le 1
      · rw [if_neg hlen] at heq
        exact absurd heq (by simp)
  | toggle prev X hprev ih =>
      exact ⟨by rw [map_id_toggle]; exact ih.1,
        by rw [countHighlighted_toggle]; exact ih.2⟩
  | highlight prev X hprev ih =>
      refine ⟨by rw [map_id_panelHighlight]; exact ih.1, ?_⟩
      rw [countHighlighted_panelHighlight]
      exact le_trans
        (length_filter_and_le (fun c => decide (c.id = X))
          (fun c => !c.highlighted) prev)
        (length_filter_id_le_one X prev ih.1)
  | sceneClick prev X hprev ih =>
      refine ⟨by rw [map_id_sceneClick]; exact ih.1, ?_⟩
      rw [countHighlighted_sceneClick]
      exact length_filter_id_le_one X prev ih.1
  | clear prev hprev ih => exact ⟨List.nodup_nil, Nat.zero_le 1⟩

/-! ## Claim theorems -/

/-- Claim C2, counterexample to the claim as stated: `setExplodeAmount(3)`
stores `3`, not the clamped value `2` — the `useState` setter performs no
clamping. -/
theorem setExplodeAmount_counterexample :
    setExplodeAmount 3 0 = 3 ∧ setExplodeAmount 3 0 ≠ 2 := by
  exact ⟨rfl, by decide⟩

/-- Claim C2 (amended): the stored explode amount after `setExplodeAmount(v)`
is exactly `v`; the `[0, 2]` restriction is enforced by the slider element
(declared `min=0 max=2`), so any slider-originated change stores
`max 0 (min 2 v)` — in particular `2` for `v > 2` and `0` for `v < 0` — and
the only other writer, `handleToggleExplode`, stores `0` or `2`. -/
theorem setExplodeAmount_amended (v prev : ℚ) :
    setExplodeAmount v prev = v
    ∧ explodeSliderChange v prev = max 0 (min 2 v)
    ∧ (handleToggleExplode prev = 0 ∨ handleToggleExplode prev = 2) := by
  refine ⟨rfl, rfl, ?_⟩
  unfold handleToggleExplode
  split
  · exact Or.inl rfl
  · exact Or.inr rfl

/-- Claim C6: when a component's cached centroid coincides with the model
center, `subVectors` yields the zero vector, `THREE`'s `normalize` divides by
`length() || 1 = 1` (not by zero), so the direction is the zero vector and
the explode offset is the zero vector for every amount and model size.  In
this real-valued model no NaN can arise: the `|| 1` guard keeps the divisor
nonzero. -/
theorem explodeOffset_zero_at_model_center (explodeAmount modelSize : ℝ)
    (modelCenter : Vec3) :
    explodeDirection modelCenter modelCenter = Vec3.zero
    ∧ explodeOffset explodeAmount modelSize modelCenter modelCenter = Vec3.zero := by
  have hsub : modelCenter.sub modelCenter = Vec3.zero := by
    simp [Vec3.sub, Vec3.zero]
  have hdir : explodeDirection modelCenter modelCenter = Vec3.zero := by
    rw [explodeDirection, hsub]
    simp [Vec3.normalize, Vec3.norm, Vec3.zero, Real.sqrt_zero]
  refine ⟨hdir, ?_⟩
  rw [explodeOffset, hdir]
  simp [Vec3.scale, Vec3.zero]

/-- Claim C4: rerunning the explode effect with amount `0` resets every
component's mesh position to exactly its `initialPosition`, no matter what
sequence of explode amounts (each with its own recomputed model box) was
applied before — the effect always starts from
`mesh.position.copy(component.initialPosition)`, so nothing accumulates. -/
theorem explode_zero_restores_initialPosition (modelSize : ℝ) (modelCenter : Vec3)
    (originalCentroids : List Vec3) (history : List (ℝ × ℝ × Vec3))
    (components : List MeshComponent) :
    (explodeEffect 0 modelSize modelCenter originalCentroids
        (applyExplodeHistory originalCentroids history components)).map
      (fun c => c.meshPosition)
    = components.map (fun c => c.initialPosition) := by
  rw [explodeEffect, explodeLoop_zero_amount, List.map_map]
  exact applyExplodeHistory_map_initialPosition originalCentroids history components

/-- Claim C3: starting from an active measurement with no captured point, the
first pick only stores its point; the second pick emits
`{point1, point2, distance}` with `distance` the Euclidean distance between
the two world points, and — through `handleMeasurementComplete` deactivating
the tool and the deactivation effect clearing `points` — the pipeline ends
with no captured points remaining.  At `(0,0,0)` and `(3,4,0)` the emitted
distance is exactly `5`. -/
theorem measurement_two_picks (p1 p2 : Vec3) :
    (measurementSystemStep ⟨true, []⟩ (some p1)).2 = none
    ∧ (measurementSystemStep ⟨true, []⟩ (some p1)).1 = ⟨true, [p1]⟩
    ∧ (measurementSystemStep ⟨true, [p1]⟩ (some p2)).2
        = some ⟨p1, p2, p1.distanceTo p2⟩
    ∧ p1.distanceTo p2
        = Real.sqrt ((p1.x - p2.x) ^ 2 + (p1.y - p2.y) ^ 2 + (p1.z - p2.z) ^ 2)
    ∧ (measurementSystemStep ⟨true, [p1]⟩ (some p2)).1.points = []
    ∧ Vec3.distanceTo ⟨0, 0, 0⟩ ⟨3, 4, 0⟩ = 5 := by
  refine ⟨rfl, rfl, rfl, rfl, rfl, ?_⟩
  rw [Vec3.distanceTo]
  rw [show ((0 : ℝ) - 3) ^ 2 + ((0 : ℝ) - 4) ^ 2 + ((0 : ℝ) - 0) ^ 2 = 5 ^ 2 by norm_num]
  exact Real.sqrt_sq (by norm_num)

/-- Claim C7: while split mode is active every material carries exactly the
one computed clip plane — the effect assigns `[plane]`, replacing any prior
list rather than accumulating; deactivating assigns `[]` on every material;
and the sequence on → off → on with the same axis and position leaves every
material with the same clip assignment as a single on. -/
theorem clipping_replace_clear_on_off_on (materials : List Material)
    (clipAxis : ClipAxis) (splitPosition : ℚ) :
    ((applyClippingPlanes true clipAxis splitPosition materials).all
        (fun mat =>
          decide (mat.clippingPlanes = [computeClipPlane clipAxis splitPosition])))
      = true
    ∧ ((applyClippingPlanes false clipAxis splitPosition materials).all
        (fun mat => decide (mat.clippingPlanes = []))) = true
    ∧ applyClippingPlanes true clipAxis splitPosition
        (applyClippingPlanes false clipAxis splitPosition
          (applyClippingPlanes true clipAxis splitPosition materials))
      = applyClippingPlanes true clipAxis splitPosition materials := by
  refine ⟨?_, ?_, ?_⟩
  · simp [applyClippingPlanes, List.all_eq_true]
  · simp [applyClippingPlanes, List.all_eq_true]
  · simp [applyClippingPlanes, List.map_map, Function.comp_def]

/-- Claim C9: a file whose lowercased name does not end in `.ifc`, or whose
size strictly exceeds `100 * 1024 * 1024` bytes, is rejected by
`handleFileUpload` with a validation error before `loadIFCFile` is ever
invoked (the result does not depend on the loader), and the component state
is left untouched. -/
theorem upload_validation_rejects_before_decode
    (loadFile : UploadFile → Except String (List Component))
    (file : UploadFile) (components : List Component)
    (h : hasIfcExtension file.name = false ∨ 100 * 1024 * 1024 < file.size) :
    (∃ title message,
        (handleFileUpload loadFile file components).1
          = .validationError title message)
    ∧ (handleFileUpload loadFile file components).2 = components := by
  rcases h with h | h
  · rw [handleFileUpload, if_pos h]
    exact ⟨⟨_, _, rfl⟩, rfl⟩
  · by_cases hext : hasIfcExtension file.name = false
    · rw [handleFileUpload, if_pos hext]
      exact ⟨⟨_, _, rfl⟩, rfl⟩
    · rw [handleFileUpload, if_neg hext, if_pos h]
      exact ⟨⟨_, _, rfl⟩, rfl⟩

/-- Witness for the upload-validation theorem at the concrete file
`model.txt` of size 5: the extension check fails, so the outcome is a
validation error and the components are unchanged, for a loader that would
otherwise error. -/
theorem upload_validation_rejects_before_decode_witness :
    (hasIfcExtension "model.txt" = false ∨ 100 * 1024 * 1024 < (5 : Nat))
    ∧ (∃ title message,
        (handleFileUpload (fun _ => Except.error "x") ⟨"model.txt", 5⟩
            [demoPlain]).1 = .validationError title message)
    ∧ (handleFileUpload (fun _ => Except.error "x") ⟨"model.txt", 5⟩
          [demoPlain]).2 = [demoPlain] :=
  ⟨Or.inl (by decide),
   upload_validation_rejects_before_decode (fun _ => Except.error "x")
     ⟨"model.txt", 5⟩ [demoPlain] (Or.inl (by decide))⟩

/-- Claim C10: the visibility toggle preserves the list length; pointwise, a
component whose id differs from the target passes through unchanged, while
the target keeps its `id`, `name`, `type`, `mesh`, `highlighted` and
`initialPosition` and only has `visible` negated; and when the id is absent
from the list the operation is the identity (and raises nothing). -/
theorem visibility_toggle_frame (components : List Component) (componentId : Nat) :
    (handleComponentToggle componentId components).length = components.length
    ∧ List.Forall₂
        (fun c c' =>
          (c.id ≠ componentId → c' = c)
          ∧ (c.id = componentId →
              c'.id = c.id ∧ c'.name = c.name ∧ c'.type = c.type
              ∧ c'.mesh = c.mesh ∧ c'.highlighted = c.highlighted
              ∧ c'.initialPosition = c.initialPosition
              ∧ c'.visible = !c.visible))
        components (handleComponentToggle componentId components)
    ∧ (componentId ∉ components.map (fun c => c.id) →
        handleComponentToggle componentId components = components) := by
  refine ⟨by simp [handleComponentToggle], ?_, ?_⟩
  · induction components with
    | nil => exact .nil
    | cons c rest ih =>
        rw [handleComponentToggle, List.map_cons]
        by_cases h : c.id = componentId
        · rw [if_pos h]
          exact .cons ⟨fun hne => absurd h hne,
            fun _ => ⟨rfl, rfl, rfl, rfl, rfl, rfl, rfl⟩⟩ ih
        · rw [if_neg h]
          exact .cons ⟨fun _ => rfl, fun heq => absurd heq h⟩ ih
  · intro habs
    induction components with
    | nil => rfl
    | cons c rest ih =>
        rw [List.map_cons, List.mem_cons] at habs
        push_neg at habs
        rw [handleComponentToggle, List.map_cons, if_neg (fun h => habs.1 h.symm)]
        have := ih habs.2
        rw [handleComponentToggle] at this
        rw [this]

/-- Witness for the visibility-toggle theorem: toggling the absent id 5 on a
concrete two-component list leaves the list exactly as it was. -/
theorem visibility_toggle_frame_witness :
    5 ∉ ([demoHighlighted, demoPlain].map (fun c => c.id))
    ∧ handleComponentToggle 5 [demoHighlighted, demoPlain]
        = [demoHighlighted, demoPlain] :=
  ⟨by decide,
   (visibility_toggle_frame [demoHighlighted, demoPlain] 5).2.2 (by decide)⟩

/-- Claim C8: the decode loop keeps exactly the ids whose property lookup
succeeds with a recognizable `type` field (in order), counts every failed id
in `failedCount` while continuing with the rest, satisfies
`components + failures = ids`, and the load rejects with the empty-model
error exactly when zero components survive the per-id filtering.
Concretely, 10 distinct positive ids of which 2 fail lookup yield a
successful decode stage with 8 components and failure counter 2. -/
theorem decode_skips_failed_ids_empty_iff
    (getItemProperties : Nat → Option ItemProps) (subsetPos : Nat → Vec3)
    (ids : List Nat) :
    (decodeIds getItemProperties subsetPos ids).components
        = ids.filterMap (processId getItemProperties subsetPos)
    ∧ (decodeIds getItemProperties subsetPos ids).failedCount
        = (ids.filter
            (fun id => (processId getItemProperties subsetPos id).isNone)).length
    ∧ (decodeIds getItemProperties subsetPos ids).components.length
        + (decodeIds getItemProperties subsetPos ids).failedCount = ids.length
    ∧ (∀ idsArray : List Int,
        (∃ msg, loadIFCFile getItemProperties subsetPos idsArray
            = .emptyModelError msg)
        ↔ (decodeIds getItemProperties subsetPos (uniqueIDs idsArray)).components
            = [])
    ∧ (decodeIds demoLookup demoSubsetPos
        [1, 2, 3, 4, 5, 6, 7, 8, 9, 10]).components.length = 8
    ∧ (decodeIds demoLookup demoSubsetPos
        [1, 2, 3, 4, 5, 6, 7, 8, 9, 10]).failedCount = 2 := by
  have hcomp := foldl_decodeStep_components getItemProperties subsetPos ids ⟨[], 0, 0⟩
  have hfail := foldl_decodeStep_failedCount getItemProperties subsetPos ids ⟨[], 0, 0⟩
  refine ⟨hcomp, by simpa using hfail, ?_, ?_, rfl, rfl⟩
  · rw [decodeIds, hcomp, hfail]
    simpa using length_filterMap_processId getItemProperties subsetPos ids
  · intro idsArray
    rw [loadIFCFile]
    constructor
    · rintro ⟨msg, hmsg⟩
      by_cases hlen :
          (decodeIds getItemProperties subsetPos (uniqueIDs idsArray)).components.length
            > 0
      · rw [if_pos hlen] at hmsg
        exact absurd hmsg (by simp)
      · exact List.eq_nil_of_length_eq_zero (by omega)
    · intro hnil
      rw [hnil]
      exact ⟨"No valid components could be extracted from the IFC file", by simp⟩

/-- Witness for the decode theorem: under `demoLookup` the single id 3 fails
lookup, zero components survive, and the load rejects with the empty-model
error. -/
theorem decode_skips_failed_ids_empty_iff_witness :
    ∃ msg, loadIFCFile demoLookup demoSubsetPos [3] = .emptyModelError msg :=
  ((decode_skips_failed_ids_empty_iff demoLookup demoSubsetPos []).2.2.2.1
    [3]).mpr (by rfl)

/-- Claim C1 fails as stated: with the single component of id 1 already
highlighted, invoking the panel highlight with id 1 (which is present in the
list) leaves zero components highlighted, not exactly one — the handler
toggles the target's flag instead of unconditionally setting it. -/
theorem panelHighlight_toggle_counterexample :
    1 ∈ ([demoHighlighted].map (fun c => c.id))
    ∧ countHighlighted (handleComponentHighlight 1 [demoHighlighted]) = 0
    ∧ countHighlighted (handleComponentHighlight 1 [demoHighlighted]) ≠ 1 :=
  ⟨by decide, rfl, by decide⟩

/-- Claim C1 (amended): the panel highlight unconditionally clears
`highlighted` on every other component but toggles the target, so after
`handleComponentHighlight X` (ids distinct, `X` present) exactly one
component is highlighted — and it is `X` — provided `X` was not already
highlighted; if `X` was already highlighted, zero components remain
highlighted.  The scene-pick path `handleSceneClick X` does set exactly `X`
highlighted regardless of prior state. -/
theorem panelHighlight_toggle_amended (components : List Component) (X : Nat)
    (hnodup : (components.map (fun c => c.id)).Nodup)
    (hmem : X ∈ components.map (fun c => c.id)) :
    ((∀ c ∈ components, c.id = X → c.highlighted = false) →
        countHighlighted (handleComponentHighlight X components) = 1)
    ∧ ((∀ c ∈ components, c.id = X → c.highlighted = true) →
        countHighlighted (handleComponentHighlight X components) = 0)
    ∧ (∀ c ∈ handleComponentHighlight X components,
        c.highlighted = true → c.id = X)
    ∧ countHighlighted (handleSceneClick X components) = 1
    ∧ (∀ c ∈ handleSceneClick X components, c.highlighted = true → c.id = X) := by
  refine ⟨?_, ?_, panelHighlight_highlighted_id X components, ?_,
    sceneClick_highlighted_id X components⟩
  · intro hfalse
    rw [countHighlighted_panelHighlight]
    have hcongr :
        components.filter (fun c => decide (c.id = X) && !c.highlighted)
          = components.filter (fun c => decide (c.id = X)) := by
      apply List.filter_congr
      intro c hc
      by_cases h : c.id = X
      · simp [h, hfalse c hc h]
      · simp [h]
    rw [hcongr]
    exact length_filter_id_eq_one X components hnodup hmem
  · intro htrue
    rw [countHighlighted_panelHighlight]
    have hnil :
        components.filter (fun c => decide (c.id = X) && !c.highlighted) = [] := by
      rw [List.filter_eq_nil_iff]
      intro c hc
      by_cases h : c.id = X
      · simp [h, htrue c hc h]
      · simp [h]
    rw [hnil]
    rfl
  · rw [countHighlighted_sceneClick]
    exact length_filter_id_eq_one X components hnodup hmem

/-- Witness for the amended highlight theorem on a concrete two-component
list with distinct ids where id 2 is present and not yet highlighted:
afterwards exactly one component is highlighted. -/
theorem panelHighlight_toggle_amended_witness :
    ([demoHighlighted, demoPlain].map (fun c => c.id)).Nodup
    ∧ 2 ∈ ([demoHighlighted, demoPlain].map (fun c => c.id))
    ∧ (∀ c ∈ [demoHighlighted, demoPlain], c.id = 2 → c.highlighted = false)
    ∧ countHighlighted (handleComponentHighlight 2 [demoHighlighted, demoPlain])
        = 1 :=
  ⟨by decide, by decide, by decide,
   (panelHighlight_toggle_amended [demoHighlighted, demoPlain] 2 (by decide)
      (by decide)).1 (by decide)⟩

/-- Claim C5: in every component-list state reachable by any sequence of the
exposed operations — a successful load, the panel visibility toggle, the
panel highlight, a scene-pick highlight, and clear — at most one component
is highlighted.  (Loads install decoder output, whose components all start
with `highlighted = false` and whose ids are pairwise distinct; every other
operation preserves distinctness of ids and never highlights more than one
component.) -/
theorem reachable_at_most_one_highlighted (s : List Component)
    (h : ReachableComponents s) : countHighlighted s ≤ 1 :=
  (reachable_invariant s h).2

/-- Witness: the state obtained by loading ids `[1, 2]` under `demoLookup`
and then highlighting id 1 through the panel is reachable, and it has at
most one highlighted component. -/
theorem reachable_at_most_one_highlighted_witness :
    ReachableComponents (handleComponentHighlight 1 demoLoaded)
    ∧ countHighlighted (handleComponentHighlight 1 demoLoaded) ≤ 1 :=
  have hload : ReachableComponents demoLoaded :=
    .loadOk [] demoLoaded 0 demoLookup demoSubsetPos [1, 2] .start (by rfl)
  have hr : ReachableComponents (handleComponentHighlight 1 demoLoaded) :=
    .highlight demoLoaded 1 hload
  ⟨hr, reachable_at_most_one_highlighted (handleComponentHighlight 1 demoLoaded) hr⟩

end BIM
